import Mathlib

/-! bus-tk backend: location search and fare calculation

A shallow embedding of `services/location_service.go`, `services/fare_service.go`
and the limit parsing of `handlers/location_handler.go`, followed by the
properties established about them.

Modelling conventions

* A Go `string` is a Lean `String`; every string that reaches the search code is
  valid UTF-8 (JSON decoding and `strings.ToLower` only produce valid UTF-8), so
  byte-wise equality, prefix and substring tests coincide with the character-wise
  ones used here.
* `strings.ToLower` depends on the Unicode case tables of the Go runtime, which are
  not part of the repository: it is a parameter `ToLower : String → String` of every
  definition that calls it.  `asciiToLower` is the instance used for concrete runs;
  it agrees with Go on ASCII input.
* A `float64` is carried by its exact rational value (`ℚ`).  JSON decoding yields
  finite values only, and every finite `float64` is a rational number.
* A Go `int` is an `Int`; the only arithmetic done on one is comparison.
* The catalog `s.locations` is an explicit argument; locking and lazy loading are
  outside the model.
-/

namespace BusTk

/-! ## models -/

/-- Record `models.Location`. -/
structure Location where
  NameEn : String
  NameBn : String
  Lat : ℚ
  Lon : ℚ
deriving DecidableEq

/-- Record `models.SearchResponse`. -/
structure SearchResponse where
  Locations : List Location
  Total : Int
  Query : String
deriving DecidableEq

/-- Record `models.FareRequest`. -/
structure FareRequest where
  StartLocation : Location
  EndLocation : Location
  Distance : ℚ
  BusType : String
  DiscountType : String
deriving DecidableEq

/-- Record `models.FareResponse`. -/
structure FareResponse where
  Fare : ℚ
  Distance : ℚ
  BusType : String
  BaseRate : ℚ
  DiscountApplied : String
  DiscountPercentage : ℚ
deriving DecidableEq

/-- Constant `models.BusTypeNonAC`. -/
def BusTypeNonAC : String := "nonAC"

/-- Constant `models.BusTypeAC`. -/
def BusTypeAC : String := "AC"

/-- Constant `models.DiscountTypeNone`. -/
def DiscountTypeNone : String := "none"

/-- Constant `models.DiscountTypeStudent`. -/
def DiscountTypeStudent : String := "student"

/-- Constant `models.DiscountTypePass`. -/
def DiscountTypePass : String := "pass"

/-! ## Go runtime pieces used by the services -/

/-- Go `unicode.IsSpace`: the Latin-1 spaces and the code points with the Unicode
White_Space property. -/
def isSpace (c : Char) : Bool :=
  let n := c.toNat
  n = 0x09 || n = 0x0A || n = 0x0B || n = 0x0C || n = 0x0D || n = 0x20 ||
  n = 0x85 || n = 0xA0 || n = 0x1680 || (0x2000 ≤ n && n ≤ 0x200A) ||
  n = 0x2028 || n = 0x2029 || n = 0x202F || n = 0x205F || n = 0x3000

/-- Go `strings.TrimSpace`: leading and trailing white space removed. -/
def TrimSpace (s : String) : String :=
  String.mk ((((s.data.dropWhile isSpace).reverse).dropWhile isSpace).reverse)

/-- Lower-casing of the ASCII letters, every other character unchanged: what
`strings.ToLower` does on ASCII input. -/
def asciiToLower (s : String) : String :=
  String.mk (s.data.map fun c =>
    if 65 ≤ c.toNat ∧ c.toNat ≤ 90 then Char.ofNat (c.toNat + 32) else c)

/-- Go `strings.HasPrefix s pre`. -/
def HasPrefix (s pre : String) : Bool :=
  pre.data.isPrefixOf s.data

/-- Scan of `strings.Contains`: is `sub` a prefix of some suffix of the text. -/
def containsFrom (sub : List Char) : List Char → Bool
  | [] => sub.isEmpty
  | c :: cs => sub.isPrefixOf (c :: cs) || containsFrom sub cs

/-- Go `strings.Contains s substr`. -/
def Contains (s substr : String) : Bool :=
  containsFrom substr.data s.data

/-- Go conversion `int(f)` of a `float64`: the fraction is discarded (truncation
toward zero).  Exact for every value of magnitude below `2^63`. -/
def floatToInt (f : ℚ) : Int :=
  Int.tdiv f.num (f.den : Int)

/-- Go conversion `rune(n)` of an `int`: the low 32 bits, read as a signed number. -/
def intToRune (n : Int) : Int :=
  (n + 2147483648) % 4294967296 - 2147483648

/-- Go conversion `string(r)` of a `rune`: the UTF-8 encoding of the code point, and
U+FFFD for a value that is not a valid code point. -/
def runeToString (r : Int) : String :=
  if (0 ≤ r ∧ r < 0xD800) ∨ (0xDFFF < r ∧ r ≤ 0x10FFFF) then
    String.singleton (Char.ofNat r.toNat)
  else
    String.singleton (Char.ofNat 0xFFFD)

/-- Go slice expression `xs[:hi]`: fails (run-time panic) when `hi` is negative or
beyond the length.  Go allows `hi` up to the capacity; the bound used here is the
stricter one. -/
def sliceTo {α : Type} (xs : List α) (hi : Int) : Option (List α) :=
  if 0 ≤ hi ∧ hi ≤ (xs.length : Int) then some (xs.take hi.toNat) else none

/-! ## services/location_service.go -/

/-- Method `findExactMatches`: one pass over the catalog with the three-way
`if / else if / else if` of the source. -/
def findExactMatches (ToLower : String → String) (locations : List Location)
    (query language : String) : List Location :=
  locations.filter fun location =>
    if language = "bn" ∧ ToLower location.NameBn = query then true
    else if language = "en" ∧ ToLower location.NameEn = query then true
    else if ToLower location.NameEn = query ∨ ToLower location.NameBn = query then true
    else false

/-- Method `findPrefixMatches`. -/
def findPrefixMatches (ToLower : String → String) (locations : List Location)
    (query language : String) : List Location :=
  locations.filter fun location =>
    if language = "bn" ∧ HasPrefix (ToLower location.NameBn) query = true then true
    else if language = "en" ∧ HasPrefix (ToLower location.NameEn) query = true then true
    else if HasPrefix (ToLower location.NameEn) query = true ∨
        HasPrefix (ToLower location.NameBn) query = true then true
    else false

/-- Method `findContainsMatches`. -/
def findContainsMatches (ToLower : String → String) (locations : List Location)
    (query language : String) : List Location :=
  locations.filter fun location =>
    if language = "bn" ∧ Contains (ToLower location.NameBn) query = true then true
    else if language = "en" ∧ Contains (ToLower location.NameEn) query = true then true
    else if Contains (ToLower location.NameEn) query = true ∨
        Contains (ToLower location.NameBn) query = true then true
    else false

/-- The map key built in the loop of `removeDuplicates`:
`NameEn + "|" + NameBn + "|" + string(rune(int(Lat))) + "|" + string(rune(int(Lon)))`. -/
def dedupKey (location : Location) : String :=
  location.NameEn ++ "|" ++ location.NameBn ++ "|" ++
    runeToString (intToRune (floatToInt location.Lat)) ++ "|" ++
    runeToString (intToRune (floatToInt location.Lon))

/-- Loop of `removeDuplicates`; `seen` lists the keys set to `true` in the map. -/
def removeDuplicatesLoop (seen : List String) : List Location → List Location
  | [] => []
  | location :: rest =>
    if dedupKey location ∈ seen then removeDuplicatesLoop seen rest
    else location :: removeDuplicatesLoop (dedupKey location :: seen) rest

/-- Method `removeDuplicates`: the loop started on the empty map. -/
def removeDuplicates (locations : List Location) : List Location :=
  removeDuplicatesLoop [] locations

/-- Method `SearchLocations` on the catalog `locations`.  The result is `none` when a
slice expression of the source would panic. -/
def SearchLocations (ToLower : String → String) (locations : List Location)
    (query language : String) (limit : Int) : Option SearchResponse :=
  let limit := if limit ≤ 0 then 20 else limit
  if TrimSpace query = "" then
    let limit := if limit > (locations.length : Int) then (locations.length : Int) else limit
    (sliceTo locations limit).map fun prefixOfCatalog =>
      { Locations := prefixOfCatalog, Total := (locations.length : Int), Query := "" }
  else
    let query := ToLower (TrimSpace query)
    let exactMatches := findExactMatches ToLower locations query language
    let prefixMatches := findPrefixMatches ToLower locations query language
    let containsMatches := findContainsMatches ToLower locations query language
    let results := ([] ++ exactMatches) ++ prefixMatches ++ containsMatches
    let results := removeDuplicates results
    let truncated := if (results.length : Int) > limit then sliceTo results limit else some results
    truncated.map fun results =>
      { Locations := results, Total := (results.length : Int), Query := query }

/-! ## handlers/location_handler.go -/

/-- Limit computed by the handler from the `limit` URL parameter; `parsed` is the
outcome of `strconv.Atoi` on a non-empty parameter (`none` for an absent or
unparsable one). -/
def handlerLimit (parsed : Option Int) : Int :=
  match parsed with
  | some l => if l > 0 ∧ l ≤ 100 then l else 20
  | none => 20

/-- Language computed by the handler from the `lang` URL parameter. -/
def handlerLanguage (language : String) : String :=
  let language := if language = "" then "en" else language
  if language ≠ "en" ∧ language ≠ "bn" then "en" else language

/-! ## services/fare_service.go -/

/-- Method `validateRequest`: `some msg` is the returned error, `none` is `nil`. -/
def validateRequest (request : FareRequest) : Option String :=
  if request.Distance ≤ 0 ∧
      (request.StartLocation.NameEn = "" ∨ request.EndLocation.NameEn = "") then
    some "invalid request: must provide either distance or both start and end locations"
  else none

/-- Method `calculateFare`: returns `(finalFare, baseFare, discountApplied,
discountPercentage)`. -/
def calculateFare (distance : ℚ) (busType discountType : String) : ℚ × ℚ × String × ℚ :=
  let baseRate : ℚ := if busType = BusTypeAC then 18 else 12
  let baseFare := distance * baseRate
  let baseFare := if baseFare < 20 then 20 else baseFare
  let discount : String × ℚ :=
    if discountType = DiscountTypeStudent then ("Student Discount", 50)
    else if discountType = DiscountTypePass then ("Monthly Pass", 20)
    else ("None", 0)
  let discountApplied := discount.1
  let discountPercentage := discount.2
  let discountAmount := baseFare * (discountPercentage / 100)
  let finalFare := baseFare - discountAmount
  let finalFare := if finalFare < 10 then 10 else finalFare
  (finalFare, baseFare, discountApplied, discountPercentage)

/-- Method `CalculateFare`. -/
def CalculateFare (request : FareRequest) (distance : ℚ) : Except String FareResponse :=
  match validateRequest request with
  | some err => Except.error err
  | none =>
    let busType := if request.BusType = "" then BusTypeNonAC else request.BusType
    let discountType := if request.DiscountType = "" then DiscountTypeNone else request.DiscountType
    let r := calculateFare distance busType discountType
    Except.ok
      { Fare := r.1
        Distance := distance
        BusType := busType
        BaseRate := r.2.1
        DiscountApplied := r.2.2.1
        DiscountPercentage := r.2.2.2 }


/-! ## Match tiers of a record, over either name -/

/-- Some name of the record, lower-cased, equals the query. -/
def nameEquals (ToLower : String → String) (query : String) (location : Location) : Bool :=
  decide (ToLower location.NameEn = query ∨ ToLower location.NameBn = query)

/-- Some name of the record, lower-cased, starts with the query. -/
def nameHasPrefix (ToLower : String → String) (query : String) (location : Location) : Bool :=
  HasPrefix (ToLower location.NameEn) query || HasPrefix (ToLower location.NameBn) query

/-- Some name of the record, lower-cased, contains the query. -/
def nameContains (ToLower : String → String) (query : String) (location : Location) : Bool :=
  Contains (ToLower location.NameEn) query || Contains (ToLower location.NameBn) query

/-- Limit in force after the defaulting at the start of `SearchLocations`. -/
def effectiveLimit (limit : Int) : Int :=
  if limit ≤ 0 then 20 else limit

/-! ## Concrete catalogs and requests -/

/-- Tenths as a rational in lowest terms are written out field by field, so that
concrete runs reduce by evaluation: this one is 23.1. -/
def lat23_1 : ℚ := ⟨231, 10, by decide, by decide⟩

/-- The rational 23.9. -/
def lat23_9 : ℚ := ⟨239, 10, by decide, by decide⟩

/-- The rational 90.4. -/
def lon90_4 : ℚ := ⟨452, 5, by decide, by decide⟩

/-- A catalog entry. -/
def mirpur : Location := ⟨"Mirpur", "abc", lat23_1, lon90_4⟩

/-- A second catalog entry. -/
def banani : Location := ⟨"Banani", "xyz", lat23_9, lon90_4⟩

/-- A third catalog entry. -/
def uttara : Location := ⟨"Uttara", "uvw", lat23_9, lon90_4⟩

/-- A three-entry catalog. -/
def catalog3 : List Location := [mirpur, banani, uttara]

/-- A fare request without distance and without endpoint names. -/
def requestEmpty : FareRequest :=
  { StartLocation := ⟨"", "", 0, 0⟩, EndLocation := ⟨"", "", 0, 0⟩, Distance := 0,
    BusType := "", DiscountType := "" }

/-- A fare request with a distance of 5 km and without endpoint names. -/
def requestDistanceOnly : FareRequest :=
  { StartLocation := ⟨"", "", 0, 0⟩, EndLocation := ⟨"", "", 0, 0⟩, Distance := 5,
    BusType := "", DiscountType := "" }

/-- A fare request between two named endpoints, AC bus, student discount. -/
def requestAcStudent : FareRequest :=
  { StartLocation := mirpur, EndLocation := banani, Distance := 0,
    BusType := "AC", DiscountType := "student" }

/-- The entry `mirpur` with latitude 23.9 in place of 23.1. -/
def mirpurNorth : Location := ⟨"Mirpur", "abc", lat23_9, lon90_4⟩

/-- An entry whose English name ends in the separator character. -/
def pipeLeft : Location := ⟨"a|", "b", 0, 0⟩

/-- An entry whose other name starts with the separator character. -/
def pipeRight : Location := ⟨"a", "|b", 0, 0⟩

/-- A catalog holding, for the query "mir", a contains match, a prefix match, an
exact match and a repeated entry, in that order. -/
def catalogTiers : List Location :=
  [⟨"Kashmir Road", "k", 1, 1⟩, ⟨"Mirpur", "m", 2, 2⟩, ⟨"Mir", "r", 3, 3⟩,
   ⟨"Mirpur", "m", 2, 2⟩]

/-- An entry whose English name only contains "mir" and whose other name is "mir". -/
def kashmir : Location := ⟨"Kashmir", "mir", 1, 1⟩

/-- An entry whose English name is "Mir". -/
def mirEntry : Location := ⟨"Mir", "zzz", 2, 2⟩

/-- A two-entry catalog: `kashmir`, then `mirEntry`. -/
def catalogKashmir : List Location := [kashmir, mirEntry]

/-! ## Auxiliary lemmas -/

theorem findExactMatches_eq_filter (ToLower : String → String) (locations : List Location)
    (query language : String) :
    findExactMatches ToLower locations query language
      = locations.filter (nameEquals ToLower query) := by
  unfold findExactMatches
  congr 1
  funext location
  unfold nameEquals
  by_cases h1 : ToLower location.NameEn = query <;>
    by_cases h2 : ToLower location.NameBn = query <;>
    by_cases h3 : language = "bn" <;>
    by_cases h4 : language = "en" <;> simp [h1, h2, h3, h4]

theorem findPrefixMatches_eq_filter (ToLower : String → String) (locations : List Location)
    (query language : String) :
    findPrefixMatches ToLower locations query language
      = locations.filter (nameHasPrefix ToLower query) := by
  unfold findPrefixMatches
  congr 1
  funext location
  unfold nameHasPrefix
  by_cases h1 : HasPrefix (ToLower location.NameEn) query = true <;>
    by_cases h2 : HasPrefix (ToLower location.NameBn) query = true <;>
    by_cases h3 : language = "bn" <;>
    by_cases h4 : language = "en" <;> simp [h1, h2, h3, h4]

theorem findContainsMatches_eq_filter (ToLower : String → String) (locations : List Location)
    (query language : String) :
    findContainsMatches ToLower locations query language
      = locations.filter (nameContains ToLower query) := by
  unfold findContainsMatches
  congr 1
  funext location
  unfold nameContains
  by_cases h1 : Contains (ToLower location.NameEn) query = true <;>
    by_cases h2 : Contains (ToLower location.NameBn) query = true <;>
    by_cases h3 : language = "bn" <;>
    by_cases h4 : language = "en" <;> simp [h1, h2, h3, h4]

theorem HasPrefix_self (s : String) : HasPrefix s s = true := by
  unfold HasPrefix
  rw [List.isPrefixOf_iff_prefix]

theorem Contains_of_HasPrefix (s sub : String) (h : HasPrefix s sub = true) :
    Contains s sub = true := by
  unfold HasPrefix at h
  unfold Contains
  cases hs : s.data with
  | nil =>
    rw [hs] at h
    cases hsub : sub.data with
    | nil => rfl
    | cons c cs => rw [hsub] at h; simp [List.isPrefixOf] at h
  | cons c cs =>
    rw [hs] at h
    simp [containsFrom, h]

theorem nameHasPrefix_of_nameEquals (ToLower : String → String) (query : String)
    (location : Location) (h : nameEquals ToLower query location = true) :
    nameHasPrefix ToLower query location = true := by
  unfold nameEquals at h
  unfold nameHasPrefix
  rcases of_decide_eq_true h with h | h
  · rw [h, HasPrefix_self]; rfl
  · rw [h, HasPrefix_self]; simp

theorem nameContains_of_nameHasPrefix (ToLower : String → String) (query : String)
    (location : Location) (h : nameHasPrefix ToLower query location = true) :
    nameContains ToLower query location = true := by
  unfold nameHasPrefix at h
  unfold nameContains
  rcases Bool.or_eq_true _ _ ▸ h with h | h
  · rw [Contains_of_HasPrefix _ _ h]; rfl
  · rw [Contains_of_HasPrefix _ _ h]; simp

/-! ## The deduplication loop -/

theorem removeDuplicatesLoop_sublist (seen : List String) (locations : List Location) :
    List.Sublist (removeDuplicatesLoop seen locations) locations := by
  induction locations generalizing seen with
  | nil => exact List.Sublist.slnil
  | cons x xs ih =>
    unfold removeDuplicatesLoop
    split
    · exact List.Sublist.cons x (ih seen)
    · exact List.Sublist.cons₂ x (ih _)

theorem removeDuplicatesLoop_key_not_seen (seen : List String) (locations : List Location)
    (x : Location) (hx : x ∈ removeDuplicatesLoop seen locations) : dedupKey x ∉ seen := by
  induction locations generalizing seen with
  | nil => simp [removeDuplicatesLoop] at hx
  | cons y ys ih =>
    unfold removeDuplicatesLoop at hx
    split at hx
    · exact ih seen hx
    · rcases List.mem_cons.mp hx with h | h
      · subst h; assumption
      · have := ih _ h
        intro hmem
        exact this (List.mem_cons_of_mem _ hmem)

theorem removeDuplicatesLoop_nodup (seen : List String) (locations : List Location) :
    (removeDuplicatesLoop seen locations).Nodup := by
  induction locations generalizing seen with
  | nil => simp [removeDuplicatesLoop]
  | cons y ys ih =>
    unfold removeDuplicatesLoop
    split
    · exact ih seen
    · refine List.nodup_cons.mpr ⟨?_, ih _⟩
      intro hmem
      exact removeDuplicatesLoop_key_not_seen _ _ _ hmem (List.mem_cons_self _ _)

theorem removeDuplicatesLoop_congr (s t : List String) (h : ∀ k, k ∈ s ↔ k ∈ t)
    (locations : List Location) :
    removeDuplicatesLoop s locations = removeDuplicatesLoop t locations := by
  induction locations generalizing s t with
  | nil => rfl
  | cons y ys ih =>
    unfold removeDuplicatesLoop
    by_cases hy : dedupKey y ∈ s
    · rw [if_pos hy, if_pos ((h _).mp hy)]
      exact ih s t h
    · rw [if_neg hy, if_neg (fun c => hy ((h _).mpr c))]
      congr 1
      apply ih
      intro k
      simp [h k]

theorem removeDuplicatesLoop_cons_seen (seen : List String) (x : Location)
    (xs : List Location) (h : dedupKey x ∈ seen) :
    removeDuplicatesLoop seen (x :: xs) = removeDuplicatesLoop seen xs := by
  simp [removeDuplicatesLoop, h]

theorem removeDuplicatesLoop_cons_new (seen : List String) (x : Location)
    (xs : List Location) (h : dedupKey x ∉ seen) :
    removeDuplicatesLoop seen (x :: xs)
      = x :: removeDuplicatesLoop (dedupKey x :: seen) xs := by
  simp [removeDuplicatesLoop, h]

theorem removeDuplicatesLoop_append (seen : List String) (xs ys : List Location) :
    removeDuplicatesLoop seen (xs ++ ys)
      = removeDuplicatesLoop seen xs
        ++ removeDuplicatesLoop (xs.map dedupKey ++ seen) ys := by
  induction xs generalizing seen with
  | nil => rfl
  | cons x xs ih =>
    rw [List.cons_append]
    by_cases hx : dedupKey x ∈ seen
    · rw [removeDuplicatesLoop_cons_seen _ _ _ hx, removeDuplicatesLoop_cons_seen _ _ _ hx,
        ih seen]
      congr 1
      apply removeDuplicatesLoop_congr
      intro k
      simp only [List.map_cons, List.cons_append, List.mem_cons, List.mem_append]
      constructor
      · intro h; exact Or.inr h
      · rintro (h | h)
        · subst h; exact Or.inr hx
        · exact h
    · rw [removeDuplicatesLoop_cons_new _ _ _ hx, removeDuplicatesLoop_cons_new _ _ _ hx,
        ih, List.cons_append]
      congr 2
      apply removeDuplicatesLoop_congr
      intro k
      simp only [List.map_cons, List.cons_append, List.mem_cons, List.mem_append]
      tauto

theorem sliceTo_of_le {α : Type} (xs : List α) (hi : Int) (h0 : 0 ≤ hi)
    (h1 : hi ≤ (xs.length : Int)) : sliceTo xs hi = some (xs.take hi.toNat) := by
  unfold sliceTo
  rw [if_pos ⟨h0, h1⟩]

theorem effectiveLimit_pos (limit : Int) : 0 < effectiveLimit limit := by
  unfold effectiveLimit
  split <;> omega

theorem SearchLocations_blank (ToLower : String → String) (locations : List Location)
    (query language : String) (limit : Int) (h : TrimSpace query = "") :
    SearchLocations ToLower locations query language limit
      = some { Locations := locations.take (effectiveLimit limit).toNat
               Total := (locations.length : Int)
               Query := "" } := by
  have hpos := effectiveLimit_pos limit
  unfold SearchLocations
  simp only [h, if_true]
  change Option.map _ (sliceTo locations
    (if effectiveLimit limit > (locations.length : Int) then (locations.length : Int)
      else effectiveLimit limit)) = _
  by_cases hgt : effectiveLimit limit > (locations.length : Int)
  · rw [if_pos hgt, sliceTo_of_le _ _ (by omega) (le_refl _)]
    simp only [Option.map_some', Int.toNat_ofNat]
    rw [List.take_of_length_le (le_refl _), List.take_of_length_le (by omega)]
  · rw [if_neg hgt, sliceTo_of_le _ _ (by omega) (by omega)]
    rfl

theorem SearchLocations_nonblank (ToLower : String → String) (locations : List Location)
    (query language : String) (limit : Int) (h : TrimSpace query ≠ "") :
    SearchLocations ToLower locations query language limit
      = some
        { Locations :=
            (removeDuplicates
              (findExactMatches ToLower locations (ToLower (TrimSpace query)) language
                ++ findPrefixMatches ToLower locations (ToLower (TrimSpace query)) language
                ++ findContainsMatches ToLower locations (ToLower (TrimSpace query)) language)).take
              (effectiveLimit limit).toNat
          Total :=
            (((removeDuplicates
              (findExactMatches ToLower locations (ToLower (TrimSpace query)) language
                ++ findPrefixMatches ToLower locations (ToLower (TrimSpace query)) language
                ++ findContainsMatches ToLower locations (ToLower (TrimSpace query)) language)).take
              (effectiveLimit limit).toNat).length : Int)
          Query := ToLower (TrimSpace query) } := by
  have hpos := effectiveLimit_pos limit
  unfold SearchLocations
  simp only [h, if_false, List.nil_append]
  generalize removeDuplicates _ = results
  change Option.map _ (if (results.length : Int) > effectiveLimit limit
    then sliceTo results (effectiveLimit limit) else some results) = _
  by_cases hgt : (results.length : Int) > effectiveLimit limit
  · rw [if_pos hgt, sliceTo_of_le _ _ (by omega) (by omega)]
    rfl
  · rw [if_neg hgt, List.take_of_length_le (by omega)]
    rfl

/-! ## Search: total and match passes -/

/-- C1 (counterexample): on a three-entry catalog a blank query with limit 2 returns
two locations and a Total of 3, so Total is not the number of entries returned. -/
theorem SearchLocations_blank_total_counterexample :
    ∃ r, SearchLocations asciiToLower catalog3 "  " "en" 2 = some r ∧
      r.Locations.length = 2 ∧ r.Total = 3 :=
  ⟨⟨[mirpur, banani], 3, ""⟩, by decide, by decide, by decide⟩

/-- C1 (amended): SearchLocations always returns a response. For a query that is not
blank after trimming, Total is the number of entries of Locations (after
deduplication and truncation). For a blank query, Total is the catalog size, while
Locations holds the first min(L, N) entries, L the limit in force and N the catalog
size. -/
theorem SearchLocations_total (ToLower : String → String) (locations : List Location)
    (query language : String) (limit : Int) :
    ∃ r, SearchLocations ToLower locations query language limit = some r ∧
      if TrimSpace query = "" then
        r.Total = (locations.length : Int) ∧
          r.Locations.length = min (effectiveLimit limit).toNat locations.length
      else r.Total = (r.Locations.length : Int) := by
  by_cases h : TrimSpace query = ""
  · refine ⟨_, SearchLocations_blank ToLower locations query language limit h, ?_⟩
    rw [if_pos h]
    exact ⟨rfl, List.length_take _ _⟩
  · refine ⟨_, SearchLocations_nonblank ToLower locations query language limit h, ?_⟩
    rw [if_neg h]

/-- C2 (the code at the failing input): with language "en" each of the three passes
returns a record whose English name "Mirpur" does not match the query and whose
other name does; with language "bn" each returns it for a query that matches the
English name only. -/
theorem find_matches_other_language :
    findExactMatches asciiToLower [mirpur] "abc" "en" = [mirpur] ∧
    findPrefixMatches asciiToLower [mirpur] "ab" "en" = [mirpur] ∧
    findContainsMatches asciiToLower [mirpur] "bc" "en" = [mirpur] ∧
    findExactMatches asciiToLower [mirpur] "mirpur" "bn" = [mirpur] ∧
    findPrefixMatches asciiToLower [mirpur] "mir" "bn" = [mirpur] ∧
    findContainsMatches asciiToLower [mirpur] "pur" "bn" = [mirpur] := by
  decide

/-! ## Fare calculation -/

theorem CalculateFare_of_invalid (request : FareRequest) (distance : ℚ)
    (h : request.Distance ≤ 0 ∧
      (request.StartLocation.NameEn = "" ∨ request.EndLocation.NameEn = "")) :
    CalculateFare request distance = Except.error
      "invalid request: must provide either distance or both start and end locations" := by
  unfold CalculateFare validateRequest
  rw [if_pos h]

theorem CalculateFare_of_valid (request : FareRequest) (distance : ℚ)
    (h : validateRequest request = none) :
    CalculateFare request distance = Except.ok
      { Fare := (calculateFare distance
            (if request.BusType = "" then BusTypeNonAC else request.BusType)
            (if request.DiscountType = "" then DiscountTypeNone else request.DiscountType)).1
        Distance := distance
        BusType := if request.BusType = "" then BusTypeNonAC else request.BusType
        BaseRate := (calculateFare distance
            (if request.BusType = "" then BusTypeNonAC else request.BusType)
            (if request.DiscountType = "" then DiscountTypeNone else request.DiscountType)).2.1
        DiscountApplied := (calculateFare distance
            (if request.BusType = "" then BusTypeNonAC else request.BusType)
            (if request.DiscountType = "" then DiscountTypeNone else request.DiscountType)).2.2.1
        DiscountPercentage := (calculateFare distance
            (if request.BusType = "" then BusTypeNonAC else request.BusType)
            (if request.DiscountType = "" then DiscountTypeNone else request.DiscountType)).2.2.2 } := by
  unfold CalculateFare
  rw [h]

theorem validateRequest_eq_none_iff (request : FareRequest) :
    validateRequest request = none ↔
      ¬ (request.Distance ≤ 0 ∧
        (request.StartLocation.NameEn = "" ∨ request.EndLocation.NameEn = "")) := by
  unfold validateRequest
  split <;> simp_all

/-- C3 (counterexample): a request without distance and without endpoint names is
rejected although the resolved distance passed as second argument is 5 (the
condition of the claim is false there), and a request carrying distance 5 and no
endpoint names is accepted although the resolved distance is 0 and both names are
empty (the condition of the claim is true there). -/
theorem CalculateFare_resolved_distance_counterexample :
    ((∃ e, CalculateFare requestEmpty 5 = Except.error e) ∧
      ¬ ((5 : ℚ) ≤ 0 ∧ (requestEmpty.StartLocation.NameEn = "" ∨
        requestEmpty.EndLocation.NameEn = ""))) ∧
    ((∃ r, CalculateFare requestDistanceOnly 0 = Except.ok r) ∧
      ((0 : ℚ) ≤ 0 ∧ (requestDistanceOnly.StartLocation.NameEn = "" ∨
        requestDistanceOnly.EndLocation.NameEn = ""))) :=
  ⟨⟨⟨_, CalculateFare_of_invalid requestEmpty 5 (by decide)⟩, by decide⟩,
   ⟨⟨_, CalculateFare_of_valid requestDistanceOnly 0 (by decide)⟩, by decide⟩⟩

/-- C3 (amended): CalculateFare returns a validation error if and only if the Distance
field of the request is <= 0 and (StartLocation.NameEn is empty or
EndLocation.NameEn is empty); in every other case it returns a fare breakdown and no
error. The resolved distance passed as second argument plays no part in
validation. -/
theorem CalculateFare_error_iff (request : FareRequest) (distance : ℚ) :
    ((∃ e, CalculateFare request distance = Except.error e) ↔
      (request.Distance ≤ 0 ∧
        (request.StartLocation.NameEn = "" ∨ request.EndLocation.NameEn = ""))) ∧
    ((∃ r, CalculateFare request distance = Except.ok r) ↔
      ¬ (request.Distance ≤ 0 ∧
        (request.StartLocation.NameEn = "" ∨ request.EndLocation.NameEn = ""))) := by
  by_cases h : request.Distance ≤ 0 ∧
      (request.StartLocation.NameEn = "" ∨ request.EndLocation.NameEn = "")
  · have he := CalculateFare_of_invalid request distance h
    refine ⟨⟨fun _ => h, fun _ => ⟨_, he⟩⟩, ⟨?_, fun hn => absurd h hn⟩⟩
    rintro ⟨r, hr⟩
    rw [he] at hr
    cases hr
  · have ho := CalculateFare_of_valid request distance
      ((validateRequest_eq_none_iff request).mpr h)
    refine ⟨⟨?_, fun hp => absurd hp h⟩, ⟨fun _ => h, fun _ => ⟨_, ho⟩⟩⟩
    rintro ⟨e, he⟩
    rw [ho] at he
    cases he

theorem ite_lt_eq_max (a b : ℚ) : (if a < b then b else a) = max a b := by
  split
  · rw [max_eq_right (le_of_lt ‹_›)]
  · rw [max_eq_left (not_lt.mp ‹_›)]

theorem calculateFare_baseFare (distance : ℚ) (busType discountType : String) :
    (calculateFare distance busType discountType).2.1
      = max (distance * (if busType = "AC" then 18 else 12)) 20 := by
  unfold calculateFare BusTypeAC
  exact ite_lt_eq_max _ _

theorem calculateFare_percentage (distance : ℚ) (busType discountType : String) :
    (calculateFare distance busType discountType).2.2.2
      = if discountType = "student" then 50 else if discountType = "pass" then 20 else 0 := by
  unfold calculateFare DiscountTypeStudent DiscountTypePass
  simp only []
  split_ifs <;> rfl

theorem calculateFare_label (distance : ℚ) (busType discountType : String) :
    (calculateFare distance busType discountType).2.2.1
      = if discountType = "student" then "Student Discount"
        else if discountType = "pass" then "Monthly Pass" else "None" := by
  unfold calculateFare DiscountTypeStudent DiscountTypePass
  simp only []
  split_ifs <;> rfl

theorem calculateFare_fare (distance : ℚ) (busType discountType : String) :
    (calculateFare distance busType discountType).1
      = max ((calculateFare distance busType discountType).2.1
          * (1 - (calculateFare distance busType discountType).2.2.2 / 100)) 10 := by
  unfold calculateFare
  simp only []
  rw [ite_lt_eq_max]
  congr 1
  ring

/-- C4: for every request that passes validation and every distance d, CalculateFare
returns a response with Distance = d, BaseRate = max(d * r, 20) where r = 18 if
BusType is "AC" and 12 otherwise, DiscountPercentage and DiscountApplied equal to
(50, "Student Discount") for "student", (20, "Monthly Pass") for "pass" and
(0, "None") for any other discount type, and Fare = max(BaseRate * (1 - p/100), 10). -/
theorem CalculateFare_breakdown (request : FareRequest) (distance : ℚ)
    (h : validateRequest request = none) :
    ∃ resp, CalculateFare request distance = Except.ok resp ∧
      resp.Distance = distance ∧
      resp.BaseRate = max (distance * (if request.BusType = "AC" then 18 else 12)) 20 ∧
      resp.DiscountPercentage =
        (if request.DiscountType = "student" then 50
          else if request.DiscountType = "pass" then 20 else 0) ∧
      resp.DiscountApplied =
        (if request.DiscountType = "student" then "Student Discount"
          else if request.DiscountType = "pass" then "Monthly Pass" else "None") ∧
      resp.Fare = max (resp.BaseRate * (1 - resp.DiscountPercentage / 100)) 10 := by
  refine ⟨_, CalculateFare_of_valid request distance h, rfl, ?_, ?_, ?_, ?_⟩
  · simp only [calculateFare_baseFare]
    by_cases hb : request.BusType = ""
    · rw [if_pos hb, hb]
      simp only [BusTypeNonAC]
      rw [if_neg (by decide), if_neg (by decide)]
    · rw [if_neg hb]
  · simp only [calculateFare_percentage]
    by_cases hd : request.DiscountType = ""
    · rw [if_pos hd, hd]
      simp only [DiscountTypeNone]
      rw [if_neg (by decide), if_neg (by decide), if_neg (by decide), if_neg (by decide)]
    · rw [if_neg hd]
  · simp only [calculateFare_label]
    by_cases hd : request.DiscountType = ""
    · rw [if_pos hd, hd]
      simp only [DiscountTypeNone]
      rw [if_neg (by decide), if_neg (by decide), if_neg (by decide), if_neg (by decide)]
    · rw [if_neg hd]
  · exact calculateFare_fare _ _ _

/-- C4 (witness): distance 10, AC bus, student discount give BaseRate 180,
DiscountPercentage 50 and Fare 90. -/
theorem CalculateFare_breakdown_witness :
    validateRequest requestAcStudent = none ∧
    ∃ resp, CalculateFare requestAcStudent 10 = Except.ok resp ∧
      resp.Distance = 10 ∧ resp.BaseRate = 180 ∧ resp.DiscountPercentage = 50 ∧
      resp.DiscountApplied = "Student Discount" ∧ resp.Fare = 90 := by
  obtain ⟨resp, h1, h2, h3, h4, h5, h6⟩ :=
    CalculateFare_breakdown requestAcStudent 10 (by decide)
  refine ⟨by decide, resp, h1, h2, ?_, ?_, ?_, ?_⟩
  · rw [h3]; norm_num [requestAcStudent]
  · rw [h4]; simp [requestAcStudent]
  · rw [h5]; simp [requestAcStudent]
  · rw [h6, h3, h4]; norm_num [requestAcStudent]

/-! ## Search results: shape, order and duplicates -/

theorem removeDuplicates_append3 (xs ys zs : List Location) :
    ∃ e p c, removeDuplicates (xs ++ ys ++ zs) = e ++ p ++ c ∧
      List.Sublist e xs ∧ List.Sublist p ys ∧ List.Sublist c zs ∧
      (∀ x ∈ p, x ∉ xs) ∧ (∀ x ∈ c, x ∉ ys) := by
  refine ⟨removeDuplicatesLoop [] xs,
    removeDuplicatesLoop (xs.map dedupKey ++ []) ys,
    removeDuplicatesLoop ((xs ++ ys).map dedupKey ++ []) zs, ?_,
    removeDuplicatesLoop_sublist _ _, removeDuplicatesLoop_sublist _ _,
    removeDuplicatesLoop_sublist _ _, ?_, ?_⟩
  · unfold removeDuplicates
    rw [removeDuplicatesLoop_append, removeDuplicatesLoop_append]
  · intro x hx hmem
    apply removeDuplicatesLoop_key_not_seen _ _ _ hx
    simp only [List.append_nil, List.mem_map]
    exact ⟨x, hmem, rfl⟩
  · intro x hx hmem
    apply removeDuplicatesLoop_key_not_seen _ _ _ hx
    simp only [List.append_nil, List.mem_map, List.mem_append]
    exact ⟨x, Or.inr hmem, rfl⟩

theorem take_append3_sublists {α : Type} (n : Nat) (e p c : List α) :
    ∃ e1 p1 c1, (e ++ p ++ c).take n = e1 ++ p1 ++ c1 ∧
      List.Sublist e1 e ∧ List.Sublist p1 p ∧ List.Sublist c1 c := by
  refine ⟨e.take n, p.take (n - e.length), c.take (n - (e ++ p).length), ?_,
    List.take_sublist _ _, List.take_sublist _ _, List.take_sublist _ _⟩
  rw [List.take_append_eq_append_take, List.take_append_eq_append_take]

/-- Order of the returned list by either-name tiers, which is what the three passes
compute for every language value: for a query that is not blank, the Locations
returned by SearchLocations are three consecutive blocks: records with some name
equal to the normalized query, then records with some name that has it as a prefix
and none equal to it, then records with some name that contains it and none that
has it as a prefix; each block is a subsequence of the catalog. -/
theorem SearchLocations_tier_order (ToLower : String → String) (locations : List Location)
    (query language : String) (limit : Int) (h : TrimSpace query ≠ "") :
    ∃ r e p c, SearchLocations ToLower locations query language limit = some r ∧
      r.Locations = e ++ p ++ c ∧
      List.Sublist e locations ∧ List.Sublist p locations ∧ List.Sublist c locations ∧
      (∀ x ∈ e, nameEquals ToLower (ToLower (TrimSpace query)) x = true) ∧
      (∀ x ∈ p, nameEquals ToLower (ToLower (TrimSpace query)) x = false ∧
        nameHasPrefix ToLower (ToLower (TrimSpace query)) x = true) ∧
      (∀ x ∈ c, nameHasPrefix ToLower (ToLower (TrimSpace query)) x = false ∧
        nameContains ToLower (ToLower (TrimSpace query)) x = true) := by
  obtain ⟨e, p, c, hsplit, he, hp, hc, hpe, hcp⟩ :=
    removeDuplicates_append3
      (findExactMatches ToLower locations (ToLower (TrimSpace query)) language)
      (findPrefixMatches ToLower locations (ToLower (TrimSpace query)) language)
      (findContainsMatches ToLower locations (ToLower (TrimSpace query)) language)
  obtain ⟨e1, p1, c1, htake, he1, hp1, hc1⟩ :=
    take_append3_sublists (effectiveLimit limit).toNat e p c
  rw [findExactMatches_eq_filter] at he hpe
  rw [findPrefixMatches_eq_filter] at hp hcp
  rw [findContainsMatches_eq_filter] at hc
  refine ⟨_, e1, p1, c1, SearchLocations_nonblank ToLower locations query language limit h,
    ?_, ?_, ?_, ?_, ?_, ?_, ?_⟩
  · show List.take _ (removeDuplicates _) = _
    rw [hsplit, htake]
  · exact (he1.trans he).trans (List.filter_sublist _)
  · exact (hp1.trans hp).trans (List.filter_sublist _)
  · exact (hc1.trans hc).trans (List.filter_sublist _)
  · intro x hx
    exact (List.mem_filter.mp ((he1.trans he).subset hx)).2
  · intro x hx
    have hxp := List.mem_filter.mp ((hp1.trans hp).subset hx)
    refine ⟨?_, hxp.2⟩
    by_contra hne
    exact hpe x (hp1.subset hx)
      (List.mem_filter.mpr ⟨hxp.1, by simpa using hne⟩)
  · intro x hx
    have hxc := List.mem_filter.mp ((hc1.trans hc).subset hx)
    refine ⟨?_, hxc.2⟩
    by_contra hne
    exact hcp x (hc1.subset hx)
      (List.mem_filter.mpr ⟨hxc.1, by simpa using hne⟩)

/-- The either-name ordering at the query "Mir" over a catalog listing a contains
match, a prefix match, an exact match and a repeated entry. -/
theorem SearchLocations_tier_order_witness :
    TrimSpace "Mir" ≠ "" ∧
    ∃ r e p c, SearchLocations asciiToLower catalogTiers "Mir" "en" 10 = some r ∧
      r.Locations = e ++ p ++ c ∧
      List.Sublist e catalogTiers ∧ List.Sublist p catalogTiers ∧
      List.Sublist c catalogTiers ∧
      (∀ x ∈ e, nameEquals asciiToLower (asciiToLower (TrimSpace "Mir")) x = true) ∧
      (∀ x ∈ p, nameEquals asciiToLower (asciiToLower (TrimSpace "Mir")) x = false ∧
        nameHasPrefix asciiToLower (asciiToLower (TrimSpace "Mir")) x = true) ∧
      (∀ x ∈ c, nameHasPrefix asciiToLower (asciiToLower (TrimSpace "Mir")) x = false ∧
        nameContains asciiToLower (asciiToLower (TrimSpace "Mir")) x = true) :=
  ⟨by decide, SearchLocations_tier_order asciiToLower catalogTiers "Mir" "en" 10 (by decide)⟩

theorem SearchLocations_tiers_run :
    SearchLocations asciiToLower catalogTiers "Mir" "en" 10
      = some ⟨[⟨"Mir", "r", 3, 3⟩, ⟨"Mirpur", "m", 2, 2⟩, ⟨"Kashmir Road", "k", 1, 1⟩], 3,
          "mir"⟩ := by
  decide

/-- C5 (the code at the failing input): with language "en" and query "mir" over the
catalog [Kashmir, Mir], the exact pass selects Kashmir through its other name, so
the search returns Kashmir, whose English name only contains the query (it neither
equals it nor starts with it), before Mir, whose English name equals the query. -/
theorem SearchLocations_tier_order_other_language :
    SearchLocations asciiToLower catalogKashmir "mir" "en" 10
      = some ⟨[kashmir, mirEntry], 2, "mir"⟩ ∧
    findExactMatches asciiToLower catalogKashmir "mir" "en" = [kashmir, mirEntry] ∧
    asciiToLower kashmir.NameEn ≠ "mir" ∧
    HasPrefix (asciiToLower kashmir.NameEn) "mir" = false ∧
    Contains (asciiToLower kashmir.NameEn) "mir" = true ∧
    asciiToLower mirEntry.NameEn = "mir" := by
  decide

/-- C6 (the code at the failing inputs): removeDuplicates drops a record that differs
from an earlier one in latitude only (23.9 against 23.1, both truncated to 23), and
one that differs from an earlier one in both names when the concatenated keys
coincide; a search with a limit above the catalog size then misses a distinct
matching catalog record. -/
theorem removeDuplicates_key_collisions :
    mirpur ≠ mirpurNorth ∧
    dedupKey mirpur = dedupKey mirpurNorth ∧
    removeDuplicates [mirpur, mirpurNorth] = [mirpur] ∧
    pipeLeft ≠ pipeRight ∧
    removeDuplicates [pipeLeft, pipeRight] = [pipeLeft] ∧
    SearchLocations asciiToLower [mirpur, mirpurNorth] "mirpur" "en" 10
      = some ⟨[mirpur], 1, "mirpur"⟩ := by
  decide

theorem removeDuplicates_sublist (locations : List Location) :
    List.Sublist (removeDuplicates locations) locations :=
  removeDuplicatesLoop_sublist [] locations

theorem removeDuplicates_nodup (locations : List Location) :
    (removeDuplicates locations).Nodup :=
  removeDuplicatesLoop_nodup [] locations

theorem removeDuplicates_later_occurrence (pre post : List Location) (x : Location)
    (hx : x ∈ pre) :
    removeDuplicates (pre ++ x :: post) = removeDuplicates (pre ++ post) := by
  unfold removeDuplicates
  rw [removeDuplicatesLoop_append, removeDuplicatesLoop_append,
    removeDuplicatesLoop_cons_seen]
  simp only [List.append_nil, List.mem_map]
  exact ⟨x, hx, rfl⟩

theorem removeDuplicates_first_of_key (pre post : List Location) (x : Location)
    (hx : dedupKey x ∉ pre.map dedupKey) :
    ∃ rest, removeDuplicates (pre ++ x :: post) = removeDuplicates pre ++ x :: rest := by
  unfold removeDuplicates
  rw [removeDuplicatesLoop_append, removeDuplicatesLoop_cons_new]
  · exact ⟨_, rfl⟩
  · simpa using hx

/-- C7: for a query that is not blank, SearchLocations returns a list without two equal
records, which is an initial segment of removeDuplicates applied to the
concatenation exact ++ prefix ++ contains; each of the three passes repeats the
records of the pass before it; the output of removeDuplicates is a subsequence of
its input; an occurrence of a record that is preceded by an equal record is
dropped, and an occurrence whose key has not occurred before is kept in place. -/
theorem SearchLocations_no_duplicates (ToLower : String → String)
    (locations : List Location) (query language : String) (limit : Int)
    (h : TrimSpace query ≠ "") :
    (∃ r, SearchLocations ToLower locations query language limit = some r ∧
      r.Locations.Nodup ∧
      r.Locations <+:
        removeDuplicates
          (findExactMatches ToLower locations (ToLower (TrimSpace query)) language
            ++ findPrefixMatches ToLower locations (ToLower (TrimSpace query)) language
            ++ findContainsMatches ToLower locations (ToLower (TrimSpace query)) language)) ∧
    List.Sublist (findExactMatches ToLower locations (ToLower (TrimSpace query)) language)
      (findPrefixMatches ToLower locations (ToLower (TrimSpace query)) language) ∧
    List.Sublist (findPrefixMatches ToLower locations (ToLower (TrimSpace query)) language)
      (findContainsMatches ToLower locations (ToLower (TrimSpace query)) language) ∧
    (∀ l : List Location, List.Sublist (removeDuplicates l) l) ∧
    (∀ (pre post : List Location) (x : Location), x ∈ pre →
      removeDuplicates (pre ++ x :: post) = removeDuplicates (pre ++ post)) ∧
    (∀ (pre post : List Location) (x : Location), dedupKey x ∉ pre.map dedupKey →
      ∃ rest, removeDuplicates (pre ++ x :: post) = removeDuplicates pre ++ x :: rest) := by
  refine ⟨⟨_, SearchLocations_nonblank ToLower locations query language limit h, ?_, ?_⟩,
    ?_, ?_, removeDuplicates_sublist, removeDuplicates_later_occurrence,
    removeDuplicates_first_of_key⟩
  · exact (removeDuplicates_nodup _).sublist (List.take_sublist _ _)
  · exact List.take_prefix _ _
  · rw [findExactMatches_eq_filter, findPrefixMatches_eq_filter]
    exact List.monotone_filter_right _ (fun x hx => nameHasPrefix_of_nameEquals _ _ x hx)
  · rw [findPrefixMatches_eq_filter, findContainsMatches_eq_filter]
    exact List.monotone_filter_right _ (fun x hx => nameContains_of_nameHasPrefix _ _ x hx)


/-- C7 (witness): the query "Mir" over a catalog in which "Mirpur" is listed twice and
qualifies for two passes. -/
theorem SearchLocations_no_duplicates_witness :
    TrimSpace "Mir" ≠ "" ∧
    ∃ r, SearchLocations asciiToLower catalogTiers "Mir" "en" 10 = some r ∧
      r.Locations.Nodup :=
  ⟨by decide,
    (SearchLocations_no_duplicates asciiToLower catalogTiers "Mir" "en" 10 (by decide)).1.imp
      fun _ hr => ⟨hr.1, hr.2.1⟩⟩

/-! ## Search: blank query and limit -/

/-- C8: for a query that is blank after trimming, SearchLocations returns a response
(no slice bound is out of range, whatever the catalog size) whose Locations are
the first min(L, N) catalog entries in catalog order, L = limit if limit > 0 and 20
otherwise, N the catalog size, and whose Query is the empty string; the language
plays no part. -/
theorem SearchLocations_blank_query (ToLower : String → String) (locations : List Location)
    (query language : String) (limit : Int) (h : TrimSpace query = "") :
    ∃ r, SearchLocations ToLower locations query language limit = some r ∧
      r.Locations
        = locations.take (min (if 0 < limit then limit else 20).toNat locations.length) ∧
      r.Locations.length = min (if 0 < limit then limit else 20).toNat locations.length ∧
      min (if 0 < limit then limit else 20).toNat locations.length ≤ locations.length ∧
      r.Query = "" := by
  have hL : (if 0 < limit then limit else 20) = effectiveLimit limit := by
    unfold effectiveLimit
    split_ifs <;> omega
  rw [hL]
  refine ⟨_, SearchLocations_blank ToLower locations query language limit h, ?_, ?_,
    Nat.min_le_right _ _, rfl⟩
  · show List.take _ _ = List.take _ _
    rcases Nat.le_total (effectiveLimit limit).toNat locations.length with hle | hle
    · rw [Nat.min_eq_left hle]
    · rw [Nat.min_eq_right hle, List.take_of_length_le hle,
        List.take_of_length_le (le_refl _)]
  · exact List.length_take _ _

/-- C8 (witness): a blank query with limit 5 on the empty catalog. -/
theorem SearchLocations_blank_query_witness :
    TrimSpace " \t " = "" ∧
    ∃ r, SearchLocations asciiToLower [] " \t " "bn" 5 = some r ∧
      r.Locations = ([] : List Location).take
        (min (if (0 : Int) < 5 then (5 : Int) else 20).toNat ([] : List Location).length) ∧
      r.Locations.length
        = min (if (0 : Int) < 5 then (5 : Int) else 20).toNat ([] : List Location).length ∧
      min (if (0 : Int) < 5 then (5 : Int) else 20).toNat ([] : List Location).length
        ≤ ([] : List Location).length ∧
      r.Query = "" :=
  ⟨by decide, SearchLocations_blank_query asciiToLower [] " \t " "bn" 5 (by decide)⟩

theorem SearchLocations_effectiveLimit (ToLower : String → String)
    (locations : List Location) (query language : String) (limit : Int) :
    SearchLocations ToLower locations query language limit
      = SearchLocations ToLower locations query language (effectiveLimit limit) := by
  have hidem : effectiveLimit (effectiveLimit limit) = effectiveLimit limit := by
    unfold effectiveLimit
    split_ifs <;> omega
  by_cases h : TrimSpace query = ""
  · rw [SearchLocations_blank _ _ _ _ _ h, SearchLocations_blank _ _ _ _ _ h, hidem]
  · rw [SearchLocations_nonblank _ _ _ _ _ h, SearchLocations_nonblank _ _ _ _ _ h, hidem]

theorem SearchLocations_length_le (ToLower : String → String)
    (locations : List Location) (query language : String) (limit : Int) :
    ∃ r, SearchLocations ToLower locations query language limit = some r ∧
      (r.Locations.length : Int) ≤ effectiveLimit limit := by
  have hpos := effectiveLimit_pos limit
  by_cases h : TrimSpace query = ""
  · refine ⟨_, SearchLocations_blank _ _ _ _ _ h, ?_⟩
    show ((List.take _ _).length : Int) ≤ _
    rw [List.length_take]
    omega
  · refine ⟨_, SearchLocations_nonblank _ _ _ _ _ h, ?_⟩
    show ((List.take _ _).length : Int) ≤ _
    rw [List.length_take]
    omega

/-- C9: for every limit <= 0, SearchLocations returns the same response as with limit 20;
for every limit > 0 it returns a response with at most limit locations. -/
theorem SearchLocations_default_limit (ToLower : String → String)
    (locations : List Location) (query language : String) (limit : Int) :
    (limit ≤ 0 →
      SearchLocations ToLower locations query language limit
        = SearchLocations ToLower locations query language 20) ∧
    (0 < limit →
      ∃ r, SearchLocations ToLower locations query language limit = some r ∧
        (r.Locations.length : Int) ≤ limit) := by
  constructor
  · intro hle
    rw [SearchLocations_effectiveLimit]
    have : effectiveLimit limit = 20 := by
      unfold effectiveLimit
      rw [if_pos hle]
    rw [this]
  · intro hpos
    obtain ⟨r, hr, hlen⟩ := SearchLocations_length_le ToLower locations query language limit
    refine ⟨r, hr, ?_⟩
    have : effectiveLimit limit = limit := by
      unfold effectiveLimit
      rw [if_neg (by omega)]
    rw [this] at hlen
    exact hlen

/-- C9 (witness): limit -3 against limit 20, and limit 2, on a three-entry catalog. -/
theorem SearchLocations_default_limit_witness :
    ((-3 : Int) ≤ 0 ∧
      SearchLocations asciiToLower catalog3 "a" "en" (-3)
        = SearchLocations asciiToLower catalog3 "a" "en" 20) ∧
    ((0 : Int) < 2 ∧
      ∃ r, SearchLocations asciiToLower catalog3 "a" "en" 2 = some r ∧
        (r.Locations.length : Int) ≤ 2) :=
  ⟨⟨by decide,
     (SearchLocations_default_limit asciiToLower catalog3 "a" "en" (-3)).1 (by decide)⟩,
   ⟨by decide,
     (SearchLocations_default_limit asciiToLower catalog3 "a" "en" 2).2 (by decide)⟩⟩

theorem SearchLocations_length_le_catalog (ToLower : String → String)
    (locations : List Location) (query language : String) (limit : Int) :
    ∃ r, SearchLocations ToLower locations query language limit = some r ∧
      r.Locations.length ≤ locations.length := by
  by_cases h : TrimSpace query = ""
  · refine ⟨_, SearchLocations_blank _ _ _ _ _ h, ?_⟩
    exact (List.take_sublist _ _).length_le
  · refine ⟨_, SearchLocations_nonblank _ _ _ _ _ h, ?_⟩
    show (List.take _ (removeDuplicates _)).length ≤ _
    apply List.Subperm.length_le
    apply List.subperm_of_subset
    · exact (removeDuplicates_nodup _).sublist (List.take_sublist _ _)
    · intro x hx
      have hx1 := (removeDuplicates_sublist _).subset ((List.take_sublist _ _).subset hx)
      rw [findExactMatches_eq_filter, findPrefixMatches_eq_filter,
        findContainsMatches_eq_filter] at hx1
      simp only [List.mem_append, List.mem_filter] at hx1
      rcases hx1 with (h1 | h1) | h1 <;> exact h1.1

theorem handlerLimit_range (parsed : Option Int) :
    0 < handlerLimit parsed ∧ handlerLimit parsed ≤ 100 := by
  unfold handlerLimit
  cases parsed with
  | none => decide
  | some l =>
    simp only []
    split
    · assumption
    · decide

/-- C10 (counterexample): no ceiling bounds the number of locations SearchLocations
returns: for every candidate ceiling a catalog of one more entry, searched with a
blank query and a limit equal to its size, is returned whole; with 101 entries and
limit 101 the response lists 101 locations. -/
theorem SearchLocations_no_ceiling_counterexample :
    (¬ ∃ ceiling : Nat, ∀ (locations : List Location) (query language : String)
        (limit : Int) (r : SearchResponse),
        SearchLocations asciiToLower locations query language limit = some r →
          r.Locations.length ≤ ceiling) ∧
    (∃ r, SearchLocations asciiToLower (List.replicate 101 mirpur) "" "en" 101 = some r ∧
      r.Locations.length = 101) := by
  constructor
  · rintro ⟨ceiling, hc⟩
    have hrun := SearchLocations_blank asciiToLower (List.replicate (ceiling + 1) mirpur)
      "" "en" ((ceiling : Int) + 1) (by decide)
    have hlen := hc _ _ _ _ _ hrun
    have heff : effectiveLimit ((ceiling : Int) + 1) = (ceiling : Int) + 1 := by
      unfold effectiveLimit
      rw [if_neg (by omega)]
    simp only [heff, List.length_take, List.length_replicate] at hlen
    omega
  · refine ⟨_, SearchLocations_blank asciiToLower (List.replicate 101 mirpur)
      "" "en" 101 (by decide), ?_⟩
    simp [effectiveLimit]

/-- C10 (amended): SearchLocations applies no ceiling of its own. It returns at most
L locations, L = limit if limit > 0 and 20 otherwise, and at most as many as the
catalog has entries. The ceiling of 100 is applied by the request handler, whose
limit is the parsed value when that lies in 1..100 and 20 otherwise; with the
handler's limit at most 100 locations are returned. -/
theorem SearchLocations_limit_bounds (ToLower : String → String)
    (locations : List Location) (query language : String) (limit : Int) :
    (∃ r, SearchLocations ToLower locations query language limit = some r ∧
      (r.Locations.length : Int) ≤ (if 0 < limit then limit else 20) ∧
      r.Locations.length ≤ locations.length) ∧
    (∀ parsed : Option Int,
      handlerLimit parsed
        = (match parsed with
          | some l => if 0 < l ∧ l ≤ 100 then l else 20
          | none => 20) ∧
      ∃ r, SearchLocations ToLower locations query language (handlerLimit parsed) = some r ∧
        r.Locations.length ≤ 100) := by
  constructor
  · obtain ⟨r, hr, hlen⟩ := SearchLocations_length_le ToLower locations query language limit
    obtain ⟨r2, hr2, hlen2⟩ :=
      SearchLocations_length_le_catalog ToLower locations query language limit
    rw [hr] at hr2
    cases hr2
    refine ⟨r, hr, ?_, hlen2⟩
    unfold effectiveLimit at hlen
    split_ifs at hlen ⊢ <;> omega
  · intro parsed
    refine ⟨?_, ?_⟩
    · cases parsed <;> rfl
    · obtain ⟨r, hr, hlen⟩ :=
        SearchLocations_length_le ToLower locations query language (handlerLimit parsed)
      refine ⟨r, hr, ?_⟩
      have hrange := handlerLimit_range parsed
      unfold effectiveLimit at hlen
      rw [if_neg (by omega)] at hlen
      omega

/-! ## Search: the language argument -/

/-- C11: the language argument has no effect on search. For any two language values
each of findExactMatches, findPrefixMatches and findContainsMatches returns the
same list, namely the catalog records one of whose two names matches, and
SearchLocations returns the same response, which is never a failure. -/
theorem SearchLocations_language_irrelevant (ToLower : String → String)
    (locations : List Location) (query l1 l2 : String) (limit : Int) :
    (∀ q : String,
      findExactMatches ToLower locations q l1 = findExactMatches ToLower locations q l2 ∧
      findPrefixMatches ToLower locations q l1 = findPrefixMatches ToLower locations q l2 ∧
      findContainsMatches ToLower locations q l1
        = findContainsMatches ToLower locations q l2 ∧
      findExactMatches ToLower locations q l1
        = locations.filter (fun location =>
            decide (ToLower location.NameEn = q ∨ ToLower location.NameBn = q)) ∧
      findPrefixMatches ToLower locations q l1
        = locations.filter (fun location =>
            HasPrefix (ToLower location.NameEn) q || HasPrefix (ToLower location.NameBn) q) ∧
      findContainsMatches ToLower locations q l1
        = locations.filter (fun location =>
            Contains (ToLower location.NameEn) q || Contains (ToLower location.NameBn) q)) ∧
    SearchLocations ToLower locations query l1 limit
      = SearchLocations ToLower locations query l2 limit ∧
    ∃ r, SearchLocations ToLower locations query l1 limit = some r ∧
      SearchLocations ToLower locations query l2 limit = some r := by
  have hfind : ∀ q : String,
      findExactMatches ToLower locations q l1 = findExactMatches ToLower locations q l2 ∧
      findPrefixMatches ToLower locations q l1 = findPrefixMatches ToLower locations q l2 ∧
      findContainsMatches ToLower locations q l1
        = findContainsMatches ToLower locations q l2 := by
    intro q
    simp only [findExactMatches_eq_filter, findPrefixMatches_eq_filter,
      findContainsMatches_eq_filter, and_self]
  have heq : SearchLocations ToLower locations query l1 limit
      = SearchLocations ToLower locations query l2 limit := by
    by_cases h : TrimSpace query = ""
    · rw [SearchLocations_blank _ _ _ _ _ h, SearchLocations_blank _ _ _ _ _ h]
    · rw [SearchLocations_nonblank _ _ _ _ _ h, SearchLocations_nonblank _ _ _ _ _ h,
        (hfind _).1, (hfind _).2.1, (hfind _).2.2]
  refine ⟨fun q => ⟨(hfind q).1, (hfind q).2.1, (hfind q).2.2,
    findExactMatches_eq_filter _ _ _ _, findPrefixMatches_eq_filter _ _ _ _,
    findContainsMatches_eq_filter _ _ _ _⟩, heq, ?_⟩
  obtain ⟨r, hr, _⟩ := SearchLocations_length_le ToLower locations query l1 limit
  exact ⟨r, hr, heq ▸ hr⟩

theorem SearchLocations_language_run :
    SearchLocations asciiToLower catalog3 "abc" "en" 5 = some ⟨[mirpur], 1, "abc"⟩ ∧
    SearchLocations asciiToLower catalog3 "abc" "bn" 5 = some ⟨[mirpur], 1, "abc"⟩ ∧
    SearchLocations asciiToLower catalog3 "abc" "fr" 5 = some ⟨[mirpur], 1, "abc"⟩ := by
  decide

/-! ## Fare calculation: the floor after the discount -/

/-- C12: in calculateFare the minimum of 10 applied after the discount never binds. For
every distance (zero and negative included), bus type and discount type the base
fare is at least 20, the discount percentage lies between 0 and 50, the discounted
amount baseFare - baseFare * (p/100) is at least 10, the returned fare equals
baseFare * (1 - p/100) and lies between 10 and the base fare; the same holds for
the Fare, BaseRate and DiscountPercentage of every response of CalculateFare. -/
theorem calculateFare_floor_never_binds (distance : ℚ) (busType discountType : String) :
    20 ≤ (calculateFare distance busType discountType).2.1 ∧
    0 ≤ (calculateFare distance busType discountType).2.2.2 ∧
    (calculateFare distance busType discountType).2.2.2 ≤ 50 ∧
    10 ≤ (calculateFare distance busType discountType).2.1
        - (calculateFare distance busType discountType).2.1
          * ((calculateFare distance busType discountType).2.2.2 / 100) ∧
    (calculateFare distance busType discountType).1
      = (calculateFare distance busType discountType).2.1
        * (1 - (calculateFare distance busType discountType).2.2.2 / 100) ∧
    10 ≤ (calculateFare distance busType discountType).1 ∧
    (calculateFare distance busType discountType).1
      ≤ (calculateFare distance busType discountType).2.1 ∧
    (∀ (request : FareRequest) (resp : FareResponse),
      CalculateFare request distance = Except.ok resp →
        resp.Fare = resp.BaseRate * (1 - resp.DiscountPercentage / 100) ∧
        10 ≤ resp.Fare ∧ resp.Fare ≤ resp.BaseRate ∧ 20 ≤ resp.BaseRate) := by
  have key : ∀ bt dt : String,
      20 ≤ (calculateFare distance bt dt).2.1 ∧
      0 ≤ (calculateFare distance bt dt).2.2.2 ∧
      (calculateFare distance bt dt).2.2.2 ≤ 50 ∧
      (calculateFare distance bt dt).1
        = (calculateFare distance bt dt).2.1
          * (1 - (calculateFare distance bt dt).2.2.2 / 100) ∧
      10 ≤ (calculateFare distance bt dt).1 ∧
      (calculateFare distance bt dt).1 ≤ (calculateFare distance bt dt).2.1 := by
    intro bt dt
    have hB : 20 ≤ (calculateFare distance bt dt).2.1 := by
      rw [calculateFare_baseFare]
      exact le_max_right _ _
    have hp : 0 ≤ (calculateFare distance bt dt).2.2.2 ∧
        (calculateFare distance bt dt).2.2.2 ≤ 50 := by
      rw [calculateFare_percentage]
      split_ifs <;> norm_num
    have hF : (calculateFare distance bt dt).1
        = (calculateFare distance bt dt).2.1
          * (1 - (calculateFare distance bt dt).2.2.2 / 100) := by
      rw [calculateFare_fare]
      apply max_eq_left
      nlinarith [hB, hp.1, hp.2]
    refine ⟨hB, hp.1, hp.2, hF, ?_, ?_⟩
    · rw [hF]; nlinarith [hB, hp.1, hp.2]
    · rw [hF]; nlinarith [hB, hp.1, hp.2]
  obtain ⟨hB, hp0, hp50, hF, h10, hle⟩ := key busType discountType
  refine ⟨hB, hp0, hp50, ?_, hF, h10, hle, ?_⟩
  · nlinarith [hB, hp0, hp50]
  · intro request resp hresp
    unfold CalculateFare at hresp
    cases hv : validateRequest request with
    | some err =>
      rw [hv] at hresp
      cases hresp
    | none =>
      rw [hv] at hresp
      simp only [Except.ok.injEq] at hresp
      subst hresp
      obtain ⟨hB2, _, _, hF2, h102, hle2⟩ := key
        (if request.BusType = "" then BusTypeNonAC else request.BusType)
        (if request.DiscountType = "" then DiscountTypeNone else request.DiscountType)
      exact ⟨hF2, h102, hle2, hB2⟩

theorem calculateFare_floor_run :
    calculateFare 0 "nonAC" "student" = (10, 20, "Student Discount", 50) ∧
    calculateFare (-3) "AC" "pass" = (16, 20, "Monthly Pass", 20) := by
  have h1 : ¬ ("pass" = "student") := by decide
  have h2 : ¬ ("nonAC" = "AC") := by decide
  constructor <;>
    norm_num [calculateFare, BusTypeAC, DiscountTypeStudent, DiscountTypePass, h1, h2]

end BusTk
